import Mathlib

set_option maxRecDepth 16384

/-!
Shallow embedding of `src/main.py` (portfolio-news-agent).

The program fetches recent news per ticker, deduplicates items by a SHA-256
fingerprint persisted in `seen.json`, asks a language model for analysis, and
conditionally emails the result.  The external collaborators (HTTP news API,
language model, email transport, clock) are modelled as explicit inputs:
the fetcher receives the decoded JSON body the API returned, the orchestrators
receive oracles for per-ticker fetch results and for the model's reply, and
the file `seen.json` is modelled by its parsed shape (missing / unreadable-or-
unparsable / a JSON array of strings).  Everything the repository's own code
computes (sanitization, fingerprinting via SHA-256, the client-side time
filter, the dedup loop, the alert gating) is embedded concretely below.
-/

/-- A normalized news item, the dict shape produced by `finnhub_news` and
consumed by `item_id`, `llm_analyze` and the orchestrators.  All keys are
always present on items the program builds, so the fields are total. -/
structure Item where
  symbol : String
  headline : String
  summary : String
  source : String
  url : String
  datetime : String
  category : String
deriving DecidableEq, Repr

/-! ### `ascii_safe` (main.py lines 17-33)

The Python code chains six single-character `str.replace` calls and then
`encode("ascii", errors="ignore")`.  Since every pattern and replacement is a
single character and every replacement is ASCII (hence untouched by the later
replaces and kept by the ASCII filter), the chain is a per-character map
followed by dropping code points ≥ 128. -/

/-- U+2014 EM DASH -/
def emDash : Char := Char.ofNat 0x2014
/-- U+2013 EN DASH -/
def enDash : Char := Char.ofNat 0x2013
/-- U+201C LEFT DOUBLE QUOTATION MARK -/
def lDQuo : Char := Char.ofNat 0x201C
/-- U+201D RIGHT DOUBLE QUOTATION MARK -/
def rDQuo : Char := Char.ofNat 0x201D
/-- U+2019 RIGHT SINGLE QUOTATION MARK -/
def rSQuo : Char := Char.ofNat 0x2019
/-- U+00A0 NO-BREAK SPACE -/
def nbsp : Char := Char.ofNat 0x00A0

/-- The per-character transliteration performed by the `replace` chain in
`ascii_safe`: em/en dash to `-`, curly double quotes to `"`, curly apostrophe
to `'` (code point 39), no-break space to a plain space. -/
def asciiSafeChar (c : Char) : Char :=
  if c = emDash then Char.ofNat 0x2D
  else if c = enDash then Char.ofNat 0x2D
  else if c = lDQuo then Char.ofNat 0x22
  else if c = rDQuo then Char.ofNat 0x22
  else if c = rSQuo then Char.ofNat 0x27
  else if c = nbsp then Char.ofNat 0x20
  else c

/-- Model of `ascii_safe` (main.py 17-33): transliterate the six punctuation marks,
then drop every remaining non-ASCII character
(`encode("ascii", errors="ignore").decode("ascii")`). -/
def ascii_safe (s : String) : String :=
  String.mk (((s.data.map asciiSafeChar).filter (fun c => c.toNat < 128)))

/-- Model of `send_email` (main.py 85-98) up to the transport boundary: both subject
and content pass through `ascii_safe` before being handed to the mail client.
The model returns the pair actually given to the transport. -/
def send_email (subject content : String) : String × String :=
  (ascii_safe subject, ascii_safe content)

/-! ### UTF-8 and SHA-256 (for `item_id`, main.py 76-83)

`item_id` is `hashlib.sha256(raw.encode("utf-8")).hexdigest()`.  Both the
UTF-8 encoding and SHA-256 (FIPS 180-4) are implemented concretely on `Nat`
byte lists so the fingerprint is the genuine digest. -/

/-- UTF-8 encoding of a single scalar value (1 to 4 bytes). -/
def utf8EncodeChar (c : Char) : List Nat :=
  let n := c.toNat
  if n < 0x80 then [n]
  else if n < 0x800 then
    [0xC0 ||| (n >>> 6), 0x80 ||| (n &&& 0x3F)]
  else if n < 0x10000 then
    [0xE0 ||| (n >>> 12), 0x80 ||| ((n >>> 6) &&& 0x3F), 0x80 ||| (n &&& 0x3F)]
  else
    [0xF0 ||| (n >>> 18), 0x80 ||| ((n >>> 12) &&& 0x3F),
     0x80 ||| ((n >>> 6) &&& 0x3F), 0x80 ||| (n &&& 0x3F)]

/-- UTF-8 encoding of a string as a byte list (`str.encode("utf-8")`). -/
def utf8Encode (s : String) : List Nat :=
  (s.data.map utf8EncodeChar).flatten

/-- Addition modulo 2^32. -/
def add32 (a b : Nat) : Nat := (a + b) &&& 0xFFFFFFFF

/-- Right rotation of a 32-bit word. -/
def rotr32 (x n : Nat) : Nat := ((x >>> n) ||| (x <<< (32 - n))) &&& 0xFFFFFFFF

def sha256Ch (x y z : Nat) : Nat := (x &&& y) ^^^ ((x ^^^ 0xFFFFFFFF) &&& z)

def sha256Maj (x y z : Nat) : Nat := (x &&& y) ^^^ (x &&& z) ^^^ (y &&& z)

def bigSigma0 (x : Nat) : Nat := rotr32 x 2 ^^^ rotr32 x 13 ^^^ rotr32 x 22

def bigSigma1 (x : Nat) : Nat := rotr32 x 6 ^^^ rotr32 x 11 ^^^ rotr32 x 25

def smallSigma0 (x : Nat) : Nat := rotr32 x 7 ^^^ rotr32 x 18 ^^^ (x >>> 3)

def smallSigma1 (x : Nat) : Nat := rotr32 x 17 ^^^ rotr32 x 19 ^^^ (x >>> 10)

/-- The 64 SHA-256 round constants (FIPS 180-4 §4.2.2), eight rounds per
group. -/
def sha256K : List Nat :=
  [0x428a2f98, 0x71374491, 0xb5c0fbcf, 0xe9b5dba5, 0x3956c25b, 0x59f111f1,
   0x923f82a4, 0xab1c5ed5] ++
  [0xd807aa98, 0x12835b01, 0x243185be, 0x550c7dc3, 0x72be5d74, 0x80deb1fe,
   0x9bdc06a7, 0xc19bf174] ++
  [0xe49b69c1, 0xefbe4786, 0x0fc19dc6, 0x240ca1cc, 0x2de92c6f, 0x4a7484aa,
   0x5cb0a9dc, 0x76f988da] ++
  [0x983e5152, 0xa831c66d, 0xb00327c8, 0xbf597fc7, 0xc6e00bf3, 0xd5a79147,
   0x06ca6351, 0x14292967] ++
  [0x27b70a85, 0x2e1b2138, 0x4d2c6dfc, 0x53380d13, 0x650a7354, 0x766a0abb,
   0x81c2c92e, 0x92722c85] ++
  [0xa2bfe8a1, 0xa81a664b, 0xc24b8b70, 0xc76c51a3, 0xd192e819, 0xd6990624,
   0xf40e3585, 0x106aa070] ++
  [0x19a4c116, 0x1e376c08, 0x2748774c, 0x34b0bcb5, 0x391c0cb3, 0x4ed8aa4a,
   0x5b9cca4f, 0x682e6ff3] ++
  [0x748f82ee, 0x78a5636f, 0x84c87814, 0x8cc70208, 0x90befffa, 0xa4506ceb,
   0xbef9a3f7, 0xc67178f2]

/-- Initial SHA-256 hash state. -/
def sha256H0 : List Nat :=
  [0x6a09e667, 0xbb67ae85, 0x3c6ef372, 0xa54ff53a,
   0x510e527f, 0x9b05688c, 0x1f83d9ab, 0x5be0cd19]

/-- SHA-256 padding: append `0x80`, zeros to 56 mod 64, then the bit length
as 8 big-endian bytes. -/
def sha256Pad (msg : List Nat) : List Nat :=
  let bitLen := msg.length * 8
  let zeros := (119 - msg.length % 64) % 64
  msg ++ [0x80] ++ List.replicate zeros 0 ++
    [(bitLen >>> 56) &&& 0xFF, (bitLen >>> 48) &&& 0xFF, (bitLen >>> 40) &&& 0xFF,
     (bitLen >>> 32) &&& 0xFF, (bitLen >>> 24) &&& 0xFF, (bitLen >>> 16) &&& 0xFF,
     (bitLen >>> 8) &&& 0xFF, bitLen &&& 0xFF]

/-- Group bytes into 32-bit big-endian words. -/
def bytesToWords : List Nat → List Nat
  | b0 :: b1 :: b2 :: b3 :: rest =>
      (((b0 <<< 24) ||| (b1 <<< 16) ||| (b2 <<< 8) ||| b3)) :: bytesToWords rest
  | _ => []

/-- Split a byte list into 64-byte blocks (fuel-based so it reduces in the
kernel; `fuel = l.length` is more than enough since each step consumes 64
bytes). -/
def toBlocksGo : Nat → List Nat → List (List Nat)
  | 0, _ => []
  | _ + 1, [] => []
  | fuel + 1, b :: rest =>
      (b :: rest).take 64 :: toBlocksGo fuel ((b :: rest).drop 64)

/-- Split a byte list into 64-byte blocks. -/
def toBlocks (l : List Nat) : List (List Nat) := toBlocksGo l.length l

/-- Extend the 16 message-schedule words, `fuel` more words. -/
def sha256Extend (w : List Nat) : Nat → List Nat
  | 0 => w
  | n + 1 =>
      let i := w.length
      let nw := add32 (add32 (smallSigma1 (w.getD (i - 2) 0)) (w.getD (i - 7) 0))
                      (add32 (smallSigma0 (w.getD (i - 15) 0)) (w.getD (i - 16) 0))
      sha256Extend (w ++ [nw]) n

/-- The 64 compression rounds, consuming the schedule and round constants. -/
def sha256Rounds : List Nat → List Nat → List Nat → List Nat
  | wi :: wrest, ki :: krest, [a, b, c, d, e, f, g, h] =>
      let t1 := add32 h (add32 (bigSigma1 e) (add32 (sha256Ch e f g) (add32 ki wi)))
      let t2 := add32 (bigSigma0 a) (sha256Maj a b c)
      sha256Rounds wrest krest [add32 t1 t2, a, b, c, add32 d t1, e, f, g]
  | _, _, regs => regs

/-- Process one 64-byte block into the running hash state. -/
def sha256Block (hs : List Nat) (block : List Nat) : List Nat :=
  let w := sha256Extend (bytesToWords block) 48
  match sha256Rounds w sha256K hs, hs with
  | [a, b, c, d, e, f, g, h], [h0, h1, h2, h3, h4, h5, h6, h7] =>
      [add32 h0 a, add32 h1 b, add32 h2 c, add32 h3 d,
       add32 h4 e, add32 h5 f, add32 h6 g, add32 h7 h]
  | _, hs' => hs'

/-- SHA-256 over a byte list: the eight 32-bit state words of the digest. -/
def sha256Words (msg : List Nat) : List Nat :=
  (toBlocks (sha256Pad msg)).foldl sha256Block sha256H0

/-- One lowercase hex digit. -/
def hexDigit (n : Nat) : Char :=
  if n < 10 then Char.ofNat (48 + n) else Char.ofNat (87 + n)

/-- Eight lowercase hex digits of a 32-bit word. -/
def word32Hex (w : Nat) : List Char :=
  [hexDigit ((w >>> 28) &&& 0xF), hexDigit ((w >>> 24) &&& 0xF),
   hexDigit ((w >>> 20) &&& 0xF), hexDigit ((w >>> 16) &&& 0xF),
   hexDigit ((w >>> 12) &&& 0xF), hexDigit ((w >>> 8) &&& 0xF),
   hexDigit ((w >>> 4) &&& 0xF), hexDigit (w &&& 0xF)]

/-- Model of `hashlib.sha256(bytes).hexdigest()`: the 64-character lowercase hex
digest. -/
def sha256hex (msg : List Nat) : String :=
  String.mk ((sha256Words msg).map word32Hex).flatten

/-- Model of `item_id` (main.py 76-83): SHA-256 hex digest of the UTF-8 encoding of
`symbol + "|" + headline + "|" + datetime + "|" + url`. -/
def item_id (it : Item) : String :=
  sha256hex (utf8Encode
    (it.symbol ++ "|" ++ it.headline ++ "|" ++ it.datetime ++ "|" ++ it.url))

/-! ### Seen-set store (main.py 65-74)

`seen.json` is modelled by its parsed shape: absent, unreadable/unparsable
(any exception raised while reading or `json.load`-ing), or a JSON array of
strings.  Serialization itself (`json.dump` / `json.load`) is the external
library boundary. -/

/-- The on-disk state of `seen.json` as the program observes it. -/
inductive FileState where
  | missing : FileState
  | malformed : FileState
  | jsonList : List String → FileState
deriving DecidableEq, Repr

/-- Model of `load_seen` (main.py 65-70): `set(json.load(f))` with every exception
(missing file, malformed content) caught and turned into the empty set. -/
def load_seen : FileState → Finset String
  | FileState.jsonList xs => xs.toFinset
  | _ => ∅

/-- Model of `save_seen` (main.py 72-74): writes `json.dump(sorted(list(seen)), f)`,
i.e. the elements of the set as a JSON array in ascending order. -/
def save_seen (seen : Finset String) : FileState :=
  FileState.jsonList (seen.sort (· ≤ ·))

/-! ### Timestamp rendering (`datetime.fromtimestamp(ts, tz=utc).isoformat()`)

Used by `finnhub_news` to fill the `datetime` field.  Unix seconds to a civil
date via the standard Gregorian conversion, rendered `YYYY-MM-DDTHH:MM:SS+00:00`
(integer timestamps carry no microseconds, so `isoformat` omits them). -/

/-- Two-digit zero-padded decimal. -/
def pad2 (n : Nat) : String := if n < 10 then "0" ++ toString n else toString n

/-- Four-digit zero-padded decimal (year field). -/
def pad4 (n : Nat) : String :=
  if n < 10 then "000" ++ toString n
  else if n < 100 then "00" ++ toString n
  else if n < 1000 then "0" ++ toString n
  else toString n

/-- Gregorian civil date (year, month, day) from days since 1970-01-01. -/
def civilFromDays (z0 : Int) : Int × Nat × Nat :=
  let z := z0 + 719468
  let era : Int := Int.fdiv z 146097
  let doe : Nat := (z - era * 146097).toNat
  let yoe : Nat := (doe - doe / 1460 + doe / 36524 - doe / 146096) / 365
  let doy : Nat := doe - (365 * yoe + yoe / 4 - yoe / 100)
  let mp : Nat := (5 * doy + 2) / 153
  let d : Nat := doy - (153 * mp + 2) / 5 + 1
  let m : Nat := if mp < 10 then mp + 3 else mp - 9
  (era * 400 + yoe + (if m ≤ 2 then 1 else 0), m, d)

/-- UTC ISO-8601 rendering of a Unix timestamp in seconds. -/
def isoformatUTC (ts : Int) : String :=
  let days := Int.fdiv ts 86400
  let secs := (Int.fmod ts 86400).toNat
  let c := civilFromDays days
  (if c.1 < 0 then "-" ++ pad4 (-c.1).toNat else pad4 c.1.toNat) ++ "-" ++
    pad2 c.2.1 ++ "-" ++ pad2 c.2.2 ++ "T" ++ pad2 (secs / 3600) ++ ":" ++
    pad2 (secs % 3600 / 60) ++ ":" ++ pad2 (secs % 60) ++ "+00:00"

/-! ### `finnhub_news` (main.py 35-63)

The HTTP call is the external boundary: the model receives the decoded JSON
body (`r.json()`), a list of dict-shaped records whose fields may be absent
(`it.get(key, default)`).  The request's `from`/`to` date parameters are only
sent upstream and never influence the client-side filter, so they do not
appear in the result.  `now` is `datetime.now(timezone.utc)` captured once at
the start of the call, as an instant in Unix seconds. -/

/-- One record of the API response body, fields as `it.get` sees them. -/
structure RawItem where
  datetime : Option Int
  headline : Option String
  summary : Option String
  source : Option String
  url : Option String
  category : Option String
deriving DecidableEq, Repr

/-- The dict built for a kept record (main.py 54-62). -/
def normalizeItem (symbol : String) (it : RawItem) : Item :=
  { symbol := symbol,
    headline := it.headline.getD "",
    summary := it.summary.getD "",
    source := it.source.getD "",
    url := it.url.getD "",
    datetime := isoformatUTC (it.datetime.getD 0),
    category := it.category.getD "" }

/-- The `for it in items` loop of `finnhub_news`: keep a record iff
`datetime.fromtimestamp(it.get("datetime", 0)) >= from_dt`. -/
def finnhubFilter (symbol : String) (from_dt : Int) : List RawItem → List Item
  | [] => []
  | it :: rest =>
      if from_dt ≤ it.datetime.getD 0 then
        normalizeItem symbol it :: finnhubFilter symbol from_dt rest
      else
        finnhubFilter symbol from_dt rest

/-- Model of `finnhub_news` (main.py 35-63): `from_dt = now - timedelta(hours=
lookback_hours)`; the returned list is the client-side re-filter of the API
body. -/
def finnhub_news (symbol : String) (lookback_hours now : Int)
    (items : List RawItem) : List Item :=
  finnhubFilter symbol (now - lookback_hours * 3600) items

/-! ### Substring test (Python `in` on `str`) -/

/-- Whether `pat` occurs as a contiguous substring starting at some suffix. -/
def substrAux (pat : List Char) : List Char → Bool
  | [] => pat.isPrefixOf []
  | c :: rest => pat.isPrefixOf (c :: rest) || substrAux pat rest

/-- Python's `pat in s` for strings: contiguous substring containment. -/
def containsSub (s pat : String) : Bool := substrAux pat.data s.data

/-- The alert gate of `run_breaking` (main.py 216):
`"NO ALERT" in content and "ALERT" not in content`. -/
def breakingGate (content : String) : Bool :=
  containsSub content "NO ALERT" && ! containsSub content "ALERT"

/-! ### Orchestrators (main.py 150-220)

Config comes from the environment (external); the ticker list is a parameter.
Per-ticker fetch results are an oracle `fetch`: in breaking mode `none` means
the fetch raised (the `except: continue` arm); in daily mode `.error msg`
carries `str(e)`.  The model call is an oracle `llm` from the item batch to
the reply text.  `datetime.now()` renderings are parameters. -/

/-- Model of `new_items.sort(key=lambda x: x.get("datetime",""), reverse=True)`:
a stable sort, descending by the `datetime` string. -/
def sortByDatetimeDesc (l : List Item) : List Item :=
  List.insertionSort (fun a b => b.datetime ≤ a.datetime) l

/-- Model of `llm_analyze` (main.py 100-148): truncates the batch to 80 items and asks
the model; the reply is the oracle's text on that truncated batch. -/
def llm_analyze (llm : List Item → String) (items : List Item) : String :=
  llm (items.take 80)

/-- The inner `for it in items` loop of `run_breaking` (main.py 199-203):
accumulator is `(new_items, seen)`. -/
def dedupItems : List Item → List Item × Finset String → List Item × Finset String
  | [], acc => acc
  | it :: rest, acc =>
      if item_id it ∈ acc.2 then dedupItems rest acc
      else dedupItems rest (acc.1 ++ [it], insert (item_id it) acc.2)

/-- The outer `for t in tickers` loop of `run_breaking` (main.py 196-205);
a ticker whose fetch raised (`none`) is skipped. -/
def dedupTickers (fetch : String → Option (List Item)) :
    List String → List Item × Finset String → List Item × Finset String
  | [], acc => acc
  | t :: ts, acc =>
      match fetch t with
      | none => dedupTickers fetch ts acc
      | some items => dedupTickers fetch ts (dedupItems items acc)

/-- Everything observable about one `run_breaking` invocation: the kept new
items, the in-memory seen-set at the end of the loop, what was written to
`seen.json`, the batch passed to the summarizer (if it was called), and the
body passed to `send_email` (if it was called). -/
structure BreakingResult where
  newItems : List Item
  seenFinal : Finset String
  saved : FileState
  llmInput : Option (List Item)
  emailBody : Option String

/-- Model of `run_breaking` (main.py 182-220).  The straight-line Python with early
returns is rendered per-field: `save_seen` always happens; the summarizer and
the email are reached only when `new_items` is non-empty; the email is
suppressed exactly when the gate fires on the model's reply. -/
def run_breaking (tickers : List String) (fetch : String → Option (List Item))
    (llm : List Item → String) (file : FileState) : BreakingResult :=
  let seen0 := load_seen file
  let res := dedupTickers fetch tickers ([], seen0)
  { newItems := res.1
    seenFinal := res.2
    saved := save_seen res.2
    llmInput :=
      if res.1 = [] then none
      else some (sortByDatetimeDesc res.1)
    emailBody :=
      if res.1 = [] then none
      else if breakingGate (llm_analyze llm (sortByDatetimeDesc res.1)) then none
      else some (llm_analyze llm (sortByDatetimeDesc res.1)) }

/-- The synthetic record appended by the `except` arm of `run_daily`
(main.py 165-174). -/
def errorItem (t msg nowIso : String) : Item :=
  { symbol := t,
    headline := "[Data error fetching news for " ++ t ++ "]",
    summary := msg,
    source := "system",
    url := "",
    datetime := nowIso,
    category := "error" }

/-- The `for t in tickers` loop of `run_daily` (main.py 162-174): extend with
the fetched items, or append the synthetic error record. -/
def dailyLoop (fetch : String → Except String (List Item)) (nowIso : String) :
    List String → List Item → List Item
  | [], acc => acc
  | t :: ts, acc =>
      match fetch t with
      | Except.ok items => dailyLoop fetch nowIso ts (acc ++ items)
      | Except.error e => dailyLoop fetch nowIso ts (acc ++ [errorItem t e nowIso])

/-- Everything observable about one `run_daily` invocation: the merged,
sorted item list (also the summarizer input) and the subject/content pair
handed to the transport by the unconditional `send_email` call. -/
structure DailyResult where
  items : List Item
  email : String × String

/-- Model of `run_daily` (main.py 150-180): fetch per ticker (failures become a
synthetic error item), sort descending by datetime string, summarize, and
notify unconditionally. -/
def run_daily (tickers : List String) (fetch : String → Except String (List Item))
    (nowIso dateStr : String) (llm : List Item → String) : DailyResult :=
  let allItems := sortByDatetimeDesc (dailyLoop fetch nowIso tickers [])
  { items := allItems
    email := send_email ("Daily Portfolio Briefing - " ++ dateStr)
                        (llm_analyze llm allItems) }

/-! ### Concrete fixtures used by the witness theorems -/

/-- A concrete normalized news item. -/
def exItem1 : Item :=
  { symbol := "OKLO", headline := "Reactor approved", summary := "s",
    source := "wire", url := "https://x.example/a",
    datetime := "2026-01-01T00:00:00+00:00", category := "company" }

/-- Items agreeing on symbol, headline, datetime, url but differing in the
remaining fields. -/
def exItemA : Item :=
  { symbol := "SMR", headline := "h", summary := "first summary",
    source := "wire", url := "u", datetime := "2026-01-01T00:00:00+00:00",
    category := "company" }

/-- See `exItemA`. -/
def exItemB : Item :=
  { symbol := "SMR", headline := "h", summary := "second summary",
    source := "system", url := "u", datetime := "2026-01-01T00:00:00+00:00",
    category := "error" }

/-- A fetch oracle returning one item for every ticker. -/
def exFetch1 : String → Option (List Item) := fun _ => some [exItem1]

/-- A fetch oracle that raises for every ticker. -/
def exFetchFail : String → Option (List Item) := fun _ => none

/-- A daily-mode fetch oracle that raises `"boom"` for every ticker. -/
def exFetchDailyErr : String → Except String (List Item) := fun _ => Except.error "boom"

/-- A model oracle that always answers with a rationale that contains
`"NO ALERT"` (and therefore also the substring `"ALERT"`). -/
def exLlmNoAlert : List Item → String := fun _ => "NO ALERT because severity is low."

/-! ## Helper lemmas -/

/-- Unfolding lemma exposing the five observation fields of `run_breaking`. -/
theorem run_breaking_def (tickers : List String) (fetch : String → Option (List Item))
    (llm : List Item → String) (file : FileState) :
    run_breaking tickers fetch llm file =
      { newItems := (dedupTickers fetch tickers ([], load_seen file)).1
        seenFinal := (dedupTickers fetch tickers ([], load_seen file)).2
        saved := save_seen (dedupTickers fetch tickers ([], load_seen file)).2
        llmInput :=
          if (dedupTickers fetch tickers ([], load_seen file)).1 = [] then none
          else some (sortByDatetimeDesc (dedupTickers fetch tickers ([], load_seen file)).1)
        emailBody :=
          if (dedupTickers fetch tickers ([], load_seen file)).1 = [] then none
          else if breakingGate (llm_analyze llm
              (sortByDatetimeDesc (dedupTickers fetch tickers ([], load_seen file)).1)) then none
          else some (llm_analyze llm
              (sortByDatetimeDesc (dedupTickers fetch tickers ([], load_seen file)).1)) } := rfl

/-- Unfolding lemma for `run_daily`. -/
theorem run_daily_def (tickers : List String) (fetch : String → Except String (List Item))
    (nowIso dateStr : String) (llm : List Item → String) :
    run_daily tickers fetch nowIso dateStr llm =
      { items := sortByDatetimeDesc (dailyLoop fetch nowIso tickers [])
        email := send_email ("Daily Portfolio Briefing - " ++ dateStr)
            (llm_analyze llm (sortByDatetimeDesc (dailyLoop fetch nowIso tickers []))) } := rfl

/-- The helper `substrAux` decides contiguous-substring containment. -/
theorem substrAux_iff (pat l : List Char) : substrAux pat l = true ↔ pat <:+: l := by
  induction l with
  | nil => simp [substrAux, List.isPrefixOf_iff_prefix]
  | cons c rest ih =>
      simp [substrAux, List.isPrefixOf_iff_prefix, ih, List.infix_cons_iff]

/-- The test `containsSub` is Python's substring `in`. -/
theorem containsSub_iff (s pat : String) : containsSub s pat = true ↔ pat.data <:+: s.data :=
  substrAux_iff pat.data s.data

/-- Any text containing `"NO ALERT"` also contains `"ALERT"`. -/
theorem containsSub_alert {content : String}
    (h : containsSub content "NO ALERT" = true) : containsSub content "ALERT" = true := by
  rw [containsSub_iff] at h ⊢
  exact List.IsInfix.trans (by decide) h

/-- Hence the alert gate of main.py line 216 can never fire. -/
theorem breakingGate_false (content : String) : breakingGate content = false := by
  unfold breakingGate
  cases h : containsSub content "NO ALERT" with
  | false => simp
  | true => simp [containsSub_alert h]

/-- Sorting is a permutation, so membership is unchanged. -/
theorem mem_sortByDatetimeDesc {it : Item} {l : List Item} :
    it ∈ sortByDatetimeDesc l ↔ it ∈ l :=
  (List.perm_insertionSort _ l).mem_iff

/-- Characterization of the inner dedup loop: it appends to `new_items` a
sublist `δ` of fresh items — none fingerprint-present in the incoming seen-set,
pairwise fingerprint-distinct — and adds exactly their fingerprints. -/
theorem dedupItems_spec (items : List Item) (p : List Item × Finset String) :
    ∃ δ : List Item,
      (dedupItems items p).1 = p.1 ++ δ ∧
      (dedupItems items p).2 = p.2 ∪ (δ.map item_id).toFinset ∧
      (∀ it ∈ δ, item_id it ∉ p.2) ∧
      (δ.map item_id).Nodup := by
  induction items generalizing p with
  | nil => exact ⟨[], by simp [dedupItems], by simp [dedupItems], by simp, by simp⟩
  | cons it rest ih =>
      by_cases h : item_id it ∈ p.2
      · obtain ⟨δ, h1, h2, h3, h4⟩ := ih p
        exact ⟨δ, by simpa [dedupItems, h] using h1,
          by simpa [dedupItems, h] using h2, h3, h4⟩
      · obtain ⟨δ, h1, h2, h3, h4⟩ := ih (p.1 ++ [it], insert (item_id it) p.2)
        have e : dedupItems (it :: rest) p =
            dedupItems rest (p.1 ++ [it], insert (item_id it) p.2) := by
          simp [dedupItems, h]
        refine ⟨it :: δ, ?_, ?_, ?_, ?_⟩
        · rw [e, h1]; simp
        · rw [e, h2]
          simp [List.toFinset_cons, Finset.insert_union, Finset.union_insert]
        · intro x hx
          rcases List.mem_cons.mp hx with rfl | hx'
          · exact h
          · exact fun hmem => h3 x hx' (Finset.mem_insert_of_mem hmem)
        · rw [List.map_cons, List.nodup_cons]
          refine ⟨?_, h4⟩
          intro hmem
          rcases List.mem_map.mp hmem with ⟨y, hy, hyid⟩
          exact h3 y hy (by rw [hyid]; exact Finset.mem_insert_self _ _)

/-- The same characterization for the outer per-ticker loop. -/
theorem dedupTickers_spec (fetch : String → Option (List Item)) (ts : List String)
    (p : List Item × Finset String) :
    ∃ δ : List Item,
      (dedupTickers fetch ts p).1 = p.1 ++ δ ∧
      (dedupTickers fetch ts p).2 = p.2 ∪ (δ.map item_id).toFinset ∧
      (∀ it ∈ δ, item_id it ∉ p.2) ∧
      (δ.map item_id).Nodup := by
  induction ts generalizing p with
  | nil => exact ⟨[], by simp [dedupTickers], by simp [dedupTickers], by simp, by simp⟩
  | cons t ts ih =>
      cases hf : fetch t with
      | none =>
          obtain ⟨δ, h1, h2, h3, h4⟩ := ih p
          exact ⟨δ, by simpa [dedupTickers, hf] using h1,
            by simpa [dedupTickers, hf] using h2, h3, h4⟩
      | some items =>
          have e : dedupTickers fetch (t :: ts) p =
              dedupTickers fetch ts (dedupItems items p) := by
            simp [dedupTickers, hf]
          obtain ⟨δ₁, g1, g2, g3, g4⟩ := dedupItems_spec items p
          obtain ⟨δ₂, h1, h2, h3, h4⟩ := ih (dedupItems items p)
          refine ⟨δ₁ ++ δ₂, ?_, ?_, ?_, ?_⟩
          · rw [e, h1, g1, List.append_assoc]
          · rw [e, h2, g2, List.map_append, List.toFinset_append, Finset.union_assoc]
          · intro x hx
            rcases List.mem_append.mp hx with hx1 | hx2
            · exact g3 x hx1
            · exact fun hmem =>
                h3 x hx2 (by rw [g2]; exact Finset.mem_union_left _ hmem)
          · rw [List.map_append, List.nodup_append]
            refine ⟨g4, h4, ?_⟩
            intro a ha1 ha2
            rcases List.mem_map.mp ha2 with ⟨z, hz, hz2⟩
            apply h3 z hz
            rw [g2]
            exact Finset.mem_union_right _ (by rw [hz2]; exact List.mem_toFinset.mpr ha1)

/-- Items already in the accumulator stay in the daily loop's output. -/
theorem dailyLoop_mono (fetch : String → Except String (List Item)) (nowIso : String)
    (ts : List String) (acc : List Item) {x : Item} (hx : x ∈ acc) :
    x ∈ dailyLoop fetch nowIso ts acc := by
  induction ts generalizing acc with
  | nil => simpa [dailyLoop] using hx
  | cons t ts ih =>
      cases hf : fetch t with
      | ok items =>
          simp only [dailyLoop, hf]
          exact ih _ (List.mem_append_left _ hx)
      | error e =>
          simp only [dailyLoop, hf]
          exact ih _ (List.mem_append_left _ hx)

/-- A ticker whose fetch raises contributes its synthetic error record. -/
theorem dailyLoop_error (fetch : String → Except String (List Item)) (nowIso : String)
    (ts : List String) (acc : List Item) {t msg : String}
    (ht : t ∈ ts) (hf : fetch t = Except.error msg) :
    errorItem t msg nowIso ∈ dailyLoop fetch nowIso ts acc := by
  induction ts generalizing acc with
  | nil => cases ht
  | cons u us ih =>
      rcases List.mem_cons.mp ht with rfl | ht'
      · simp only [dailyLoop, hf]
        exact dailyLoop_mono _ _ _ _ (List.mem_append_right _ (List.mem_singleton.mpr rfl))
      · cases hfu : fetch u with
        | ok items => simp only [dailyLoop, hfu]; exact ih _ ht'
        | error e => simp only [dailyLoop, hfu]; exact ih _ ht'

/-- Every character surviving `ascii_safe` is ASCII. -/
theorem ascii_safe_chars {c : Char} {s : String} (hc : c ∈ (ascii_safe s).data) :
    c.toNat < 128 := by
  simp only [ascii_safe, List.mem_filter, decide_eq_true_eq] at hc
  exact hc.2

/-- SHA-256 test vector (FIPS 180-4, one-block message `"abc"`), validating
the embedded hash. -/
theorem sha256hex_abc :
    sha256hex (utf8Encode "abc") =
      "ba7816bf8f01cfea414140de5dae2223b00361a396177a9cb410ff61f20015ad" := by decide

/-- SHA-256 test vector: the empty message. -/
theorem sha256hex_empty :
    sha256hex (utf8Encode "") =
      "e3b0c44298fc1c149afbf4c8996fb92427ae41e4649b934ca495991b7852b855" := by decide

/-- Projection: the kept new items of a breaking run. -/
theorem run_breaking_newItems (tickers : List String) (fetch : String → Option (List Item))
    (llm : List Item → String) (file : FileState) :
    (run_breaking tickers fetch llm file).newItems =
      (dedupTickers fetch tickers ([], load_seen file)).1 := rfl

/-- Projection: the final in-memory seen-set of a breaking run. -/
theorem run_breaking_seenFinal (tickers : List String) (fetch : String → Option (List Item))
    (llm : List Item → String) (file : FileState) :
    (run_breaking tickers fetch llm file).seenFinal =
      (dedupTickers fetch tickers ([], load_seen file)).2 := rfl

/-- Projection: a breaking run always writes the final seen-set. -/
theorem run_breaking_saved (tickers : List String) (fetch : String → Option (List Item))
    (llm : List Item → String) (file : FileState) :
    (run_breaking tickers fetch llm file).saved =
      save_seen (dedupTickers fetch tickers ([], load_seen file)).2 := rfl

/-- Projection: the batch handed to the summarizer, when it is called. -/
theorem run_breaking_llmInput (tickers : List String) (fetch : String → Option (List Item))
    (llm : List Item → String) (file : FileState) :
    (run_breaking tickers fetch llm file).llmInput =
      (if (dedupTickers fetch tickers ([], load_seen file)).1 = [] then none
       else some (sortByDatetimeDesc (dedupTickers fetch tickers ([], load_seen file)).1)) := rfl

/-- Projection: the body handed to `send_email`, when it is called. -/
theorem run_breaking_emailBody (tickers : List String) (fetch : String → Option (List Item))
    (llm : List Item → String) (file : FileState) :
    (run_breaking tickers fetch llm file).emailBody =
      (if (dedupTickers fetch tickers ([], load_seen file)).1 = [] then none
       else if breakingGate (llm_analyze llm
           (sortByDatetimeDesc (dedupTickers fetch tickers ([], load_seen file)).1)) then none
       else some (llm_analyze llm
           (sortByDatetimeDesc (dedupTickers fetch tickers ([], load_seen file)).1))) := rfl

/-- Projection: the merged, sorted item list of a daily run. -/
theorem run_daily_items (tickers : List String) (fetch : String → Except String (List Item))
    (nowIso dateStr : String) (llm : List Item → String) :
    (run_daily tickers fetch nowIso dateStr llm).items =
      sortByDatetimeDesc (dailyLoop fetch nowIso tickers []) := rfl

/-! ## Claims -/

/-- C1: In breaking mode, when at least one new item was found, the run ends
without sending an email if and only if the summarizer's text contains the
literal substring "NO ALERT" and does not contain the literal substring
"ALERT"; in every other case `send_email` is called with that text as the
body.  (For the text "NO ALERT because severity is low." the literal predicate
fails — "ALERT" occurs inside "NO ALERT" — so the email is sent.) -/
theorem breaking_alert_gate (tickers : List String) (fetch : String → Option (List Item))
    (llm : List Item → String) (file : FileState)
    (h : (run_breaking tickers fetch llm file).newItems ≠ []) :
    ((run_breaking tickers fetch llm file).emailBody = none ↔
      (containsSub (llm_analyze llm (sortByDatetimeDesc
          (run_breaking tickers fetch llm file).newItems)) "NO ALERT" = true ∧
       containsSub (llm_analyze llm (sortByDatetimeDesc
          (run_breaking tickers fetch llm file).newItems)) "ALERT" = false)) ∧
    (run_breaking tickers fetch llm file).emailBody =
      some (llm_analyze llm (sortByDatetimeDesc
        (run_breaking tickers fetch llm file).newItems)) := by
  rw [run_breaking_newItems] at h
  rw [run_breaking_emailBody, run_breaking_newItems, if_neg h,
    breakingGate_false, if_neg Bool.false_ne_true]
  refine ⟨⟨fun hn => absurd hn (by simp), fun hp => ?_⟩, rfl⟩
  have := containsSub_alert hp.1
  rw [hp.2] at this
  exact absurd this Bool.false_ne_true

/-- C1 witness: a concrete breaking run with one fresh item whose model reply
is exactly "NO ALERT because severity is low." sends the email with that body. -/
theorem breaking_alert_gate_witness :
    (run_breaking ["OKLO"] exFetch1 exLlmNoAlert FileState.missing).newItems ≠ [] ∧
    (run_breaking ["OKLO"] exFetch1 exLlmNoAlert FileState.missing).emailBody =
      some "NO ALERT because severity is low." := by
  have h : (run_breaking ["OKLO"] exFetch1 exLlmNoAlert FileState.missing).newItems ≠ [] := by
    decide
  exact ⟨h, (breaking_alert_gate ["OKLO"] exFetch1 exLlmNoAlert FileState.missing h).2⟩

/-- C2: In breaking mode, an item whose fingerprint is in the loaded seen-set
is never kept, never passed to the summarizer; kept items are exactly
fingerprint-fresh and their fingerprints are recorded in the in-memory set. -/
theorem breaking_dedup_discards_seen (tickers : List String)
    (fetch : String → Option (List Item)) (llm : List Item → String) (file : FileState) :
    (∀ it : Item, item_id it ∈ load_seen file →
        it ∉ (run_breaking tickers fetch llm file).newItems ∧
        ∀ l, (run_breaking tickers fetch llm file).llmInput = some l → it ∉ l) ∧
    (∀ it ∈ (run_breaking tickers fetch llm file).newItems,
        item_id it ∉ load_seen file ∧
        item_id it ∈ (run_breaking tickers fetch llm file).seenFinal) := by
  obtain ⟨δ, h1, h2, h3, h4⟩ := dedupTickers_spec fetch tickers ([], load_seen file)
  rw [List.nil_append] at h1
  have hnew : (run_breaking tickers fetch llm file).newItems = δ := by
    rw [run_breaking_newItems, h1]
  have hseen : (run_breaking tickers fetch llm file).seenFinal =
      load_seen file ∪ (δ.map item_id).toFinset := by
    rw [run_breaking_seenFinal, h2]
  constructor
  · intro it hmem
    have hni : it ∉ (run_breaking tickers fetch llm file).newItems := by
      rw [hnew]
      exact fun hin => h3 it hin hmem
    refine ⟨hni, fun l hl => ?_⟩
    rw [run_breaking_llmInput] at hl
    by_cases hc : (dedupTickers fetch tickers ([], load_seen file)).1 = []
    · rw [if_pos hc] at hl
      cases hl
    · rw [if_neg hc, Option.some_inj] at hl
      intro hinl
      rw [← hl] at hinl
      have : it ∈ δ := by
        rw [← h1]
        exact mem_sortByDatetimeDesc.mp hinl
      exact h3 it this hmem
  · intro it hit
    rw [hnew] at hit
    refine ⟨h3 it hit, ?_⟩
    rw [hseen]
    exact Finset.mem_union_right _ (List.mem_toFinset.mpr (List.mem_map.mpr ⟨it, hit, rfl⟩))

/-- C2 witness: with `seen.json` already holding the fingerprint of the one
fetched item, the item is discarded. -/
theorem breaking_dedup_discards_seen_witness :
    item_id exItem1 ∈ load_seen (FileState.jsonList [item_id exItem1]) ∧
    exItem1 ∉ (run_breaking ["OKLO"] exFetch1 exLlmNoAlert
        (FileState.jsonList [item_id exItem1])).newItems := by
  have hmem : item_id exItem1 ∈ load_seen (FileState.jsonList [item_id exItem1]) := by
    simp [load_seen]
  exact ⟨hmem, ((breaking_dedup_discards_seen ["OKLO"] exFetch1 exLlmNoAlert
    (FileState.jsonList [item_id exItem1])).1 exItem1 hmem).1⟩

/-- C3: `item_id` depends only on (symbol, headline, datetime, url) and is
the SHA-256 hex digest of the UTF-8 encoding of their "|"-joined
concatenation; summary, source and category never affect it. -/
theorem item_id_deterministic (a b : Item) (h1 : a.symbol = b.symbol)
    (h2 : a.headline = b.headline) (h3 : a.datetime = b.datetime) (h4 : a.url = b.url) :
    item_id a = item_id b ∧
    item_id a = sha256hex (utf8Encode
      (a.symbol ++ "|" ++ a.headline ++ "|" ++ a.datetime ++ "|" ++ a.url)) :=
  ⟨by simp only [item_id, h1, h2, h3, h4], rfl⟩

/-- C3 witness: two concrete items differing in summary, source and category
but agreeing on the four hashed fields share a fingerprint. -/
theorem item_id_deterministic_witness :
    exItemA.summary ≠ exItemB.summary ∧ exItemA.source ≠ exItemB.source ∧
    exItemA.category ≠ exItemB.category ∧ item_id exItemA = item_id exItemB :=
  ⟨by decide, by decide, by decide,
   (item_id_deterministic exItemA exItemB rfl rfl rfl rfl).1⟩

/-- C4: saving a seen-set and loading it back is the identity, and the
persisted representation is a JSON array holding exactly the elements of the
set in strictly ascending order. -/
theorem seen_store_roundtrip (S : Finset String) :
    load_seen (save_seen S) = S ∧
    ∃ l, save_seen S = FileState.jsonList l ∧
      List.Sorted (· < ·) l ∧ ∀ x, x ∈ l ↔ x ∈ S := by
  constructor
  · show (Finset.sort (· ≤ ·) S).toFinset = S
    exact Finset.sort_toFinset _ S
  · exact ⟨Finset.sort (· ≤ ·) S, rfl, Finset.sort_sorted_lt S,
      fun x => Finset.mem_sort (· ≤ ·)⟩

/-- C5: a breaking run that found no new items still writes the loaded
seen-set back (sorted) and stops without summarizing or emailing. -/
theorem breaking_no_new_items (tickers : List String) (fetch : String → Option (List Item))
    (llm : List Item → String) (file : FileState)
    (h : (run_breaking tickers fetch llm file).newItems = []) :
    (run_breaking tickers fetch llm file).saved = save_seen (load_seen file) ∧
    (run_breaking tickers fetch llm file).llmInput = none ∧
    (run_breaking tickers fetch llm file).emailBody = none := by
  rw [run_breaking_newItems] at h
  obtain ⟨δ, h1, h2, h3, h4⟩ := dedupTickers_spec fetch tickers ([], load_seen file)
  rw [List.nil_append] at h1
  have hδ : δ = [] := by rw [← h1, h]
  refine ⟨?_, ?_, ?_⟩
  · rw [run_breaking_saved, h2, hδ]
    simp
  · rw [run_breaking_llmInput, if_pos h]
  · rw [run_breaking_emailBody, if_pos h]

/-- C5 witness: every fetch raising (skipped tickers) yields zero new items;
the file is still rewritten and nothing downstream runs. -/
theorem breaking_no_new_items_witness :
    (run_breaking ["OKLO"] exFetchFail exLlmNoAlert FileState.missing).newItems = [] ∧
    (run_breaking ["OKLO"] exFetchFail exLlmNoAlert FileState.missing).saved =
      save_seen (load_seen FileState.missing) ∧
    (run_breaking ["OKLO"] exFetchFail exLlmNoAlert FileState.missing).llmInput = none ∧
    (run_breaking ["OKLO"] exFetchFail exLlmNoAlert FileState.missing).emailBody = none := by
  have h : (run_breaking ["OKLO"] exFetchFail exLlmNoAlert FileState.missing).newItems = [] :=
    rfl
  obtain ⟨hs, hl, he⟩ :=
    breaking_no_new_items ["OKLO"] exFetchFail exLlmNoAlert FileState.missing h
  exact ⟨h, hs, hl, he⟩

/-- C6: in daily mode a failing ticker contributes a synthetic error item
(symbol, category "error", source "system", empty url, headline naming the
ticker, error text as summary) and the email is still sent unconditionally. -/
theorem daily_fetch_error_item (tickers : List String)
    (fetch : String → Except String (List Item)) (nowIso dateStr : String)
    (llm : List Item → String) (t msg : String)
    (ht : t ∈ tickers) (hf : fetch t = Except.error msg) :
    (∃ it ∈ (run_daily tickers fetch nowIso dateStr llm).items,
        it.symbol = t ∧ it.category = "error" ∧ it.source = "system" ∧ it.url = "" ∧
        it.headline = "[Data error fetching news for " ++ t ++ "]" ∧ it.summary = msg) ∧
    (run_daily tickers fetch nowIso dateStr llm).email =
      send_email ("Daily Portfolio Briefing - " ++ dateStr)
        (llm_analyze llm (run_daily tickers fetch nowIso dateStr llm).items) := by
  refine ⟨⟨errorItem t msg nowIso, ?_, rfl, rfl, rfl, rfl, rfl, rfl⟩, rfl⟩
  rw [run_daily_items]
  exact mem_sortByDatetimeDesc.mpr (dailyLoop_error fetch nowIso tickers [] ht hf)

/-- C6 witness: ticker "XYZ" raising "boom" still yields its error item in
the notified batch. -/
theorem daily_fetch_error_item_witness :
    "XYZ" ∈ ["XYZ"] ∧
    ∃ it ∈ (run_daily ["XYZ"] exFetchDailyErr "2026-01-02T00:00:00+00:00"
        "2026-01-02" exLlmNoAlert).items,
      it.symbol = "XYZ" ∧ it.category = "error" ∧ it.source = "system" ∧ it.url = "" ∧
      it.headline = "[Data error fetching news for " ++ "XYZ" ++ "]" ∧
      it.summary = "boom" := by
  refine ⟨by decide, ?_⟩
  exact (daily_fetch_error_item ["XYZ"] exFetchDailyErr "2026-01-02T00:00:00+00:00"
    "2026-01-02" exLlmNoAlert "XYZ" "boom" (by decide) rfl).1

/-- C7: the fetcher returns exactly the normalizations, in order, of the API
records whose parsed timestamp is at least `now - lookback_hours` (as
instants; `now` is the single capture at call start). -/
theorem finnhub_news_filter (symbol : String) (lookback_hours now : Int)
    (items : List RawItem) :
    finnhub_news symbol lookback_hours now items =
      (items.filter
        (fun it => decide (now - lookback_hours * 3600 ≤ it.datetime.getD 0))).map
        (normalizeItem symbol) := by
  unfold finnhub_news
  induction items with
  | nil => rfl
  | cons it rest ih =>
      simp only [finnhubFilter, List.filter_cons]
      by_cases h : now - lookback_hours * 3600 ≤ it.datetime.getD 0
      · rw [if_pos h, if_pos (decide_eq_true h), List.map_cons, ih]
      · have hb : ¬ (decide (now - lookback_hours * 3600 ≤ it.datetime.getD 0) = true) := by
          simpa using h
        rw [if_neg h, if_neg hb, ih]

/-- C8: loading the seen store returns the empty set on any failure to read
or parse it; the failure is absorbed, not propagated (the function is total
on the failure states). -/
theorem load_seen_failure_empty :
    load_seen FileState.missing = ∅ ∧ load_seen FileState.malformed = ∅ :=
  ⟨rfl, rfl⟩

/-- C9: both components handed to the email transport pass through
`ascii_safe`, so they contain only ASCII characters; em/en dashes, curly
quotes and no-break spaces are transliterated rather than dropped. -/
theorem send_email_ascii_only (subject content : String) :
    (∀ c ∈ (send_email subject content).1.data, c.toNat < 128) ∧
    (∀ c ∈ (send_email subject content).2.data, c.toNat < 128) ∧
    ascii_safe (String.singleton emDash) = "-" ∧
    ascii_safe (String.singleton enDash) = "-" ∧
    ascii_safe (String.singleton lDQuo) = "\"" ∧
    ascii_safe (String.singleton rDQuo) = "\"" ∧
    ascii_safe (String.singleton rSQuo) = String.singleton (Char.ofNat 39) ∧
    ascii_safe (String.singleton nbsp) = " " :=
  ⟨fun _ hc => ascii_safe_chars hc, fun _ hc => ascii_safe_chars hc,
   by decide, by decide, by decide, by decide, by decide, by decide⟩

/-- C9 witness: the em dash in a concrete subject reaches the transport as
the ASCII hyphen (code point 45), which is below 128. -/
theorem send_email_ascii_only_witness :
    Char.ofNat 45 ∈ (send_email (String.singleton emDash) "x").1.data ∧
    (Char.ofNat 45).toNat < 128 := by
  refine ⟨by decide, ?_⟩
  exact (send_email_ascii_only (String.singleton emDash) "x").1 (Char.ofNat 45) (by decide)

/-- C10: the saved seen-set is exactly the loaded set united with the kept
items' fingerprints (never losing an element), and the kept items'
fingerprints are pairwise distinct within a run. -/
theorem breaking_seen_union_nodup (tickers : List String)
    (fetch : String → Option (List Item)) (llm : List Item → String) (file : FileState) :
    (run_breaking tickers fetch llm file).seenFinal =
      load_seen file ∪ (((run_breaking tickers fetch llm file).newItems).map item_id).toFinset ∧
    (((run_breaking tickers fetch llm file).newItems).map item_id).Nodup := by
  obtain ⟨δ, h1, h2, h3, h4⟩ := dedupTickers_spec fetch tickers ([], load_seen file)
  rw [List.nil_append] at h1
  constructor
  · rw [run_breaking_seenFinal, run_breaking_newItems, h1, h2]
  · rw [run_breaking_newItems, h1]
    exact h4
